import Mathlib

/-!
Verification of the PerfKitBenchmarker result-collection and publishing
engine against its specification.  The publisher module itself is not part
of the sampled sources (only its test suite is), so every definition below
is a shallow embedding reconstructed from the specification's wording,
cross-checked against the observable contracts pinned down by
`tests/publisher_test.py`.  Strings are modelled as lists of characters so
that the byte-level contracts (escaping, delimiters, ordering) can be
reasoned about by structural induction.
-/

set_option maxRecDepth 4000

/-- Strings of the modelled program: lists of characters. -/
abbrev Str := List Char

/-- Modelled from the spec: the primitive values that may appear in a
metadata mapping (strings, numbers, and the absent sentinel `None`). -/
inductive PyVal where
  | str : Str → PyVal
  | int : Int → PyVal
  | none : PyVal
deriving DecidableEq

/-- Modelled from the spec: coercion of a primitive value to its string
representation, as Python `str` renders it. -/
def PyVal.toStr : PyVal → Str
  | .str s => s
  | .int n => (toString n).data
  | .none => ("None").data

/-- A metadata mapping: an insertion-ordered association list with unique
string keys mapping to primitive values. -/
abbrev LabelMap := List (Str × PyVal)

/-- Replace every value of a mapping by its string representation. -/
def stringifyMap (m : LabelMap) : List (Str × Str) :=
  m.map fun p => (p.1, p.2.toStr)

/-- Python string comparison on the modelled strings: strict
lexicographic order by character code point. -/
def strLt : Str → Str → Bool
  | [], [] => false
  | [], _ :: _ => true
  | _ :: _, [] => false
  | a :: as, b :: bs => if a < b then true else if b < a then false else strLt as bs

/-- Insert a key/value pair into a key-sorted association list, keeping
pairs with smaller keys first (ties keep existing entries first, as a
stable sort does). -/
def insertPair (p : Str × Str) : List (Str × Str) → List (Str × Str)
  | [] => [p]
  | q :: qs => if strLt p.1 q.1 then p :: q :: qs else q :: insertPair p qs

/-- Modelled from the spec: `sorted` over the pairs of a mapping, by key
in ascending byte/lexicographic order (a stable insertion sort; on the
unique keys of a mapping any correct sort agrees). -/
def sortPairs : List (Str × Str) → List (Str × Str)
  | [] => []
  | p :: ps => insertPair p (sortPairs ps)

/-- Join a list of strings with a single separator character, as
Python `sep.join(parts)`. -/
def joinSep (sep : Char) : List Str → Str
  | [] => []
  | [p] => p
  | p :: ps => p ++ sep :: joinSep sep ps

/-- Modelled from the spec (§4.1): render one key/value pair of a label
string as `|key:value|`; no character escaping is performed. -/
def encodePair (k v : Str) : Str :=
  '|' :: k ++ ':' :: v ++ ['|']

/-- Modelled from the spec (§4.1): `LabelCodec.Encode`
(`publisher.GetLabelsFromDict`): for each key, value pair produce
`|key:value|`; concatenate with `,` separators after sorting pairs by key. -/
def GetLabelsFromDict (m : LabelMap) : Str :=
  joinSep ',' ((sortPairs (stringifyMap m)).map fun p => encodePair p.1 p.2)

/-- Split a string at every occurrence of a separator character, as
Python `s.split(sep)` (the empty string yields one empty part). -/
def splitOn (sep : Char) : Str → List Str
  | [] => [[]]
  | c :: cs =>
    match splitOn sep cs with
    | [] => [[]]
    | t :: ts => if c = sep then [] :: t :: ts else (c :: t) :: ts

/-- Split a string at the first occurrence of a separator character,
failing when the separator does not occur. -/
def splitFirst (sep : Char) : Str → Option (Str × Str)
  | [] => Option.none
  | c :: cs =>
    if c = sep then some ([], cs)
    else
      match splitFirst sep cs with
      | Option.none => Option.none
      | some (a, b) => some (c :: a, b)

/-- Modelled from the spec (§4.1): recognize one `|...|` delimited group
and split its interior on the first `:`; any string not of that shape is
a format error. -/
def decodeGroup (part : Str) : Option (Str × Str) :=
  match part with
  | '|' :: rest =>
    if rest.getLast? = some '|' then splitFirst ':' rest.dropLast
    else Option.none
  | _ => Option.none

/-- Decode every comma-separated group of a label string, failing if any
group is malformed. -/
def decodeParts : List Str → Option (List (Str × Str))
  | [] => some []
  | p :: ps =>
    match decodeGroup p, decodeParts ps with
    | some kv, some rest => some (kv :: rest)
    | _, _ => Option.none

/-- Modelled from the spec (§4.1): `LabelCodec.Decode`
(`publisher.LabelsToDict`): the inverse parse recognizing the `|...|`
delimited groups separated by `,`; it fails (`FormatError`, modelled as
`Option.none`) if the string does not match the grouped pattern.  The
empty string decodes to the empty mapping, as `Encode` of the empty
mapping produces it. -/
def LabelsToDict (s : Str) : Option (List (Str × Str)) :=
  if s = [] then some [] else decodeParts (splitOn ',' s)

/-! ### Order lemmas for the byte/lexicographic key comparison -/

theorem strLt_trans : ∀ (a b c : Str), strLt a b = true → strLt b c = true →
    strLt a c = true
  | _, [], [], _, h2 => by simp [strLt] at h2
  | [], [], _ :: _, h1, _ => by simp [strLt] at h1
  | [], _ :: _, _ :: _, _, _ => by simp [strLt]
  | _ :: _, [], _ :: _, h1, _ => by simp [strLt] at h1
  | _ :: _, _ :: _, [], _, h2 => by simp [strLt] at h2
  | a :: as, b :: bs, c :: cs, h1, h2 => by
    simp only [strLt] at h1 h2 ⊢
    rcases lt_trichotomy a b with hab | hab | hab
    · rcases lt_trichotomy b c with hbc | hbc | hbc
      · simp [lt_trans hab hbc]
      · subst hbc; simp [hab]
      · simp [hbc, lt_asymm hbc] at h2
    · subst hab
      rcases lt_trichotomy a c with hac | hac | hac
      · simp [hac]
      · subst hac
        simp only [lt_irrefl, if_false] at h1 h2 ⊢
        exact strLt_trans _ _ _ h1 h2
      · simp [hac, lt_asymm hac] at h2
    · simp [hab, lt_asymm hab] at h1

theorem strLt_asymm : ∀ (a b : Str), strLt a b = true → strLt b a = false
  | [], [], h => by simp [strLt] at h
  | [], _ :: _, _ => by simp [strLt]
  | _ :: _, [], h => by simp [strLt] at h
  | a :: as, b :: bs, h => by
    simp only [strLt] at h ⊢
    rcases lt_trichotomy a b with hab | hab | hab
    · simp [hab, lt_asymm hab]
    · subst hab
      simp only [lt_irrefl, if_false] at h ⊢
      exact strLt_asymm _ _ h
    · simp [hab, lt_asymm hab] at h

theorem strLt_conn : ∀ (a b : Str), strLt a b = false → strLt b a = false → a = b
  | [], [], _, _ => rfl
  | [], _ :: _, h, _ => by simp [strLt] at h
  | _ :: _, [], _, h => by simp [strLt] at h
  | a :: as, b :: bs, h1, h2 => by
    simp only [strLt] at h1 h2
    rcases lt_trichotomy a b with hab | hab | hab
    · simp [hab] at h1
    · subst hab
      simp only [lt_irrefl, if_false] at h1 h2
      rw [strLt_conn _ _ h1 h2]
    · simp [hab] at h2

/-- The non-strict "key not greater" relation used to state sortedness of
encoder output. -/
abbrev keyLe (p q : Str × Str) : Prop := strLt q.1 p.1 = false

/-! ### Sorting lemmas -/

theorem insertPair_perm (p : Str × Str) : ∀ l, (insertPair p l).Perm (p :: l)
  | [] => List.Perm.refl _
  | q :: qs => by
    simp only [insertPair]
    split
    · exact List.Perm.refl _
    · exact ((insertPair_perm p qs).cons q).trans (List.Perm.swap _ _ _)

theorem sortPairs_perm : ∀ l, (sortPairs l).Perm l
  | [] => List.Perm.refl _
  | p :: ps => (insertPair_perm p (sortPairs ps)).trans ((sortPairs_perm ps).cons p)

theorem insertPair_sorted (p : Str × Str) : ∀ (l : List (Str × Str)),
    l.Pairwise keyLe → (insertPair p l).Pairwise keyLe
  | [], _ => by simp [insertPair]
  | q :: qs, h => by
    rcases List.pairwise_cons.mp h with ⟨hq, hqs⟩
    simp only [insertPair]
    split
    · rename_i hlt
      refine List.pairwise_cons.mpr ⟨?_, h⟩
      intro r hr
      rcases List.mem_cons.mp hr with rfl | hr
      · exact strLt_asymm _ _ hlt
      · cases hx : strLt r.1 p.1
        · exact hx
        · have := strLt_trans _ _ _ hx hlt
          rw [hq r hr] at this
          exact absurd this (by simp)
    · rename_i hnlt
      refine List.pairwise_cons.mpr ⟨?_, insertPair_sorted p qs hqs⟩
      intro r hr
      rcases List.mem_cons.mp ((insertPair_perm p qs).mem_iff.mp hr) with rfl | hr2
      · cases hx : strLt r.1 q.1
        · exact hx
        · exact absurd hx hnlt
      · exact hq r hr2

theorem sortPairs_sorted : ∀ (l : List (Str × Str)), (sortPairs l).Pairwise keyLe
  | [] => List.Pairwise.nil
  | p :: ps => insertPair_sorted p (sortPairs ps) (sortPairs_sorted ps)

theorem sortPairs_eq_self : ∀ {l : List (Str × Str)},
    l.Pairwise (fun p q => strLt p.1 q.1 = true) → sortPairs l = l
  | [], _ => rfl
  | p :: ps, h => by
    rcases List.pairwise_cons.mp h with ⟨hp, hps⟩
    rw [sortPairs, sortPairs_eq_self hps]
    cases ps with
    | nil => rfl
    | cons q qs => simp [insertPair, hp q (List.mem_cons_self _ _)]

theorem pairwise_strict_of_nodup {l : List (Str × Str)}
    (hnd : (l.map Prod.fst).Nodup) (hs : l.Pairwise keyLe) :
    l.Pairwise (fun p q => strLt p.1 q.1 = true) := by
  have hne : l.Pairwise fun p q => p.1 ≠ q.1 := List.pairwise_map.mp hnd
  exact (hs.and hne).imp (by
    rintro a b ⟨h1, h2⟩
    cases hx : strLt a.1 b.1
    · exact absurd (strLt_conn _ _ hx h1) h2
    · rfl)

theorem sortPairs_idem (l : List (Str × Str)) (h : (l.map Prod.fst).Nodup) :
    sortPairs (sortPairs l) = sortPairs l :=
  sortPairs_eq_self (pairwise_strict_of_nodup
    (((sortPairs_perm l).map Prod.fst).nodup_iff.mpr h) (sortPairs_sorted l))

/-! ### Splitting and joining lemmas -/

theorem splitOn_ne_nil (sep : Char) : ∀ (s : Str), splitOn sep s ≠ []
  | [] => by simp [splitOn]
  | c :: cs => by
    simp only [splitOn]
    split
    · simp
    · split <;> simp

theorem splitOn_not_mem (sep : Char) : ∀ (s : Str), sep ∉ s → splitOn sep s = [s]
  | [], _ => rfl
  | c :: cs, h => by
    have hc : c ≠ sep := fun e => h (e ▸ List.mem_cons_self c cs)
    have ih := splitOn_not_mem sep cs fun m => h (List.mem_cons_of_mem _ m)
    simp [splitOn, ih, hc]

theorem splitOn_sep_append (sep : Char) : ∀ (p t : Str), sep ∉ p →
    splitOn sep (p ++ sep :: t) = p :: splitOn sep t
  | [], t, _ => by
    obtain ⟨a, as, h⟩ := List.exists_cons_of_ne_nil (splitOn_ne_nil sep t)
    simp [splitOn, h]
  | c :: p', t, h => by
    have hc : c ≠ sep := fun e => h (e ▸ List.mem_cons_self c p')
    have ih := splitOn_sep_append sep p' t fun m => h (List.mem_cons_of_mem _ m)
    simp [splitOn, ih, hc]

theorem splitOn_joinSep (sep : Char) : ∀ (parts : List Str), parts ≠ [] →
    (∀ p ∈ parts, sep ∉ p) → splitOn sep (joinSep sep parts) = parts
  | [], h, _ => absurd rfl h
  | [p], _, hall => by
    simp only [joinSep]
    exact splitOn_not_mem sep p (hall p (List.mem_singleton.mpr rfl))
  | p :: q :: ps, _, hall => by
    have ih := splitOn_joinSep sep (q :: ps) (by simp)
      fun r hr => hall r (List.mem_cons_of_mem _ hr)
    simp only [joinSep]
    rw [splitOn_sep_append sep p _ (hall p (List.mem_cons_self _ _)), ih]

theorem joinSep_cons_ne_nil (sep : Char) (p : Str) (ps : List Str) (hp : p ≠ []) :
    joinSep sep (p :: ps) ≠ [] := by
  cases ps with
  | nil => exact hp
  | cons q qs =>
    simp only [joinSep]
    exact fun h => hp (List.append_eq_nil.mp h).1

theorem splitFirst_append (sep : Char) : ∀ (k v : Str), sep ∉ k →
    splitFirst sep (k ++ sep :: v) = some (k, v)
  | [], v, _ => by simp [splitFirst]
  | c :: k', v, h => by
    have hc : c ≠ sep := fun e => h (e ▸ List.mem_cons_self c k')
    have ih := splitFirst_append sep k' v fun m => h (List.mem_cons_of_mem _ m)
    simp [splitFirst, hc, ih]

theorem decodeGroup_encodePair (k v : Str) (hk : ':' ∉ k) :
    decodeGroup (encodePair k v) = some (k, v) := by
  have he : encodePair k v = '|' :: (k ++ ':' :: v ++ ['|']) := by
    simp [encodePair]
  have hassoc : k ++ ':' :: v ++ ['|'] = (k ++ ':' :: v) ++ ['|'] := by simp
  have h1 : (k ++ ':' :: v ++ ['|']).getLast? = some '|' := by
    rw [hassoc]; exact List.getLast?_concat _
  have h2 : (k ++ ':' :: v ++ ['|']).dropLast = k ++ ':' :: v := by
    rw [hassoc]; exact List.dropLast_concat
  rw [he]
  simp only [decodeGroup, h1, h2, if_pos rfl]
  exact splitFirst_append ':' k v hk

theorem decodeParts_encode : ∀ (l : List (Str × Str)), (∀ p ∈ l, ':' ∉ p.1) →
    decodeParts (l.map fun p => encodePair p.1 p.2) = some l
  | [], _ => rfl
  | p :: ps, h => by
    simp only [List.map_cons, decodeParts]
    rw [decodeGroup_encodePair p.1 p.2 (h p (List.mem_cons_self _ _)),
      decodeParts_encode ps fun q hq => h q (List.mem_cons_of_mem _ hq)]

theorem not_mem_encodePair {c : Char} {k v : Str} (hck : c ∉ k) (hcv : c ∉ v)
    (h1 : c ≠ '|') (h2 : c ≠ ':') : c ∉ encodePair k v := by
  intro hmem
  simp only [encodePair, List.cons_append, List.append_assoc, List.mem_cons,
    List.mem_append, List.mem_singleton, List.not_mem_nil, or_false] at hmem
  rcases hmem with h | h | h | h | h <;>
    first
      | exact h1 h
      | exact hck h
      | exact h2 h
      | exact hcv h

theorem stringifyMap_wrap : ∀ (L : List (Str × Str)),
    stringifyMap (L.map fun p => (p.1, PyVal.str p.2)) = L
  | [] => rfl
  | p :: L' => by
    have ih := stringifyMap_wrap L'
    simp only [stringifyMap, List.map_cons] at ih ⊢
    rw [ih]
    rfl

/-- Decoding the joined rendering of a pair list recovers the pair list,
provided keys are free of `,` and `:` and values free of `,`. -/
theorem labels_decode_encode_list (L : List (Str × Str))
    (h : ∀ p ∈ L, (',' ∉ p.1 ∧ ':' ∉ p.1) ∧ ',' ∉ p.2) :
    LabelsToDict (joinSep ',' (L.map fun p => encodePair p.1 p.2)) = some L := by
  cases L with
  | nil => rfl
  | cons q L' =>
    have hcomma : ∀ part ∈ (q :: L').map (fun p => encodePair p.1 p.2), ',' ∉ part := by
      intro part hpart
      rcases List.mem_map.mp hpart with ⟨p, hp, rfl⟩
      exact not_mem_encodePair ((h p hp).1.1) ((h p hp).2) (by decide) (by decide)
    have hne : joinSep ',' ((q :: L').map fun p => encodePair p.1 p.2) ≠ [] := by
      apply joinSep_cons_ne_nil
      simp [encodePair]
    rw [LabelsToDict, if_neg hne,
      splitOn_joinSep ',' _ (by simp) hcomma,
      decodeParts_encode _ fun p hp => (h p hp).1.2]

/-- C1 (amended).  LabelCodec round trip: for every mapping `m` with string
or primitive values whose keys contain none of `|`, `,` and `:` and whose
stringified values contain none of `|` and `,`, decoding the encoding of
`m` succeeds and returns exactly `m` with every value coerced to its string
representation (as a mapping: the decoded association list is the key-sorted
permutation of the stringified mapping), and re-encoding the decoded mapping
reproduces the encoded string. -/
theorem labelcodec_roundtrip (m : LabelMap)
    (hk : ∀ p ∈ m, '|' ∉ p.1 ∧ ',' ∉ p.1 ∧ ':' ∉ p.1)
    (hv : ∀ p ∈ m, '|' ∉ PyVal.toStr p.2 ∧ ',' ∉ PyVal.toStr p.2)
    (hnd : (m.map Prod.fst).Nodup) :
    LabelsToDict (GetLabelsFromDict m) = some (sortPairs (stringifyMap m)) ∧
    (sortPairs (stringifyMap m)).Perm (stringifyMap m) ∧
    GetLabelsFromDict ((sortPairs (stringifyMap m)).map fun p => (p.1, PyVal.str p.2))
      = GetLabelsFromDict m := by
  have hS : ∀ p ∈ stringifyMap m, (',' ∉ p.1 ∧ ':' ∉ p.1) ∧ ',' ∉ p.2 := by
    intro p hp
    rcases List.mem_map.mp hp with ⟨q, hq, rfl⟩
    exact ⟨⟨(hk q hq).2.1, (hk q hq).2.2⟩, (hv q hq).2⟩
  have hperm := sortPairs_perm (stringifyMap m)
  have hL : ∀ p ∈ sortPairs (stringifyMap m), (',' ∉ p.1 ∧ ':' ∉ p.1) ∧ ',' ∉ p.2 :=
    fun p hp => hS p (hperm.mem_iff.mp hp)
  refine ⟨labels_decode_encode_list _ hL, hperm, ?_⟩
  have hw := stringifyMap_wrap (sortPairs (stringifyMap m))
  have hSnd : ((stringifyMap m).map Prod.fst).Nodup := by
    have he : (stringifyMap m).map Prod.fst = m.map Prod.fst := by
      simp [stringifyMap, List.map_map]
    rw [he]; exact hnd
  simp only [GetLabelsFromDict]
  rw [hw, sortPairs_idem _ hSnd]

/-- The mapping used by `tests/publisher_test.py` `testEncodeDecode`:
`{'foo': 'bar', 'metric': 32, '$#$!()': 'baz:ugg'}`. -/
def encDecMap : LabelMap :=
  [(("foo").data, PyVal.str (("bar").data)),
   (("metric").data, PyVal.int 32),
   (("$#$!()").data, PyVal.str (("baz:ugg").data))]

/-- Witness for C1 at the mapping of `testEncodeDecode` (an integer value
and a value containing colons). -/
theorem labelcodec_roundtrip_witness :
    LabelsToDict (GetLabelsFromDict encDecMap) = some (sortPairs (stringifyMap encDecMap)) ∧
    (sortPairs (stringifyMap encDecMap)).Perm (stringifyMap encDecMap) ∧
    GetLabelsFromDict ((sortPairs (stringifyMap encDecMap)).map fun p => (p.1, PyVal.str p.2))
      = GetLabelsFromDict encDecMap :=
  labelcodec_roundtrip encDecMap (by decide) (by decide) (by decide)

/-- A mapping whose key and value are free of both delimiter characters
(`|` and `,`) but whose key contains a colon. -/
def cexMap : LabelMap := [(("a:b").data, PyVal.str (("c").data))]

/-- C1 counterexample: the claim's hypothesis only excludes the delimiter
characters `|` and `,` from keys and values, but a key containing `:`
(allowed by that hypothesis) breaks the round trip: `{'a:b': 'c'}` encodes
to `|a:b:c|`, which decodes to `{'a': 'b:c'}` — a different mapping (it has
no entry for key `'a:b'`). -/
theorem labelcodec_roundtrip_cex :
    (∀ p ∈ cexMap, ('|' ∉ p.1 ∧ ',' ∉ p.1) ∧ ('|' ∉ PyVal.toStr p.2 ∧ ',' ∉ PyVal.toStr p.2)) ∧
    GetLabelsFromDict cexMap = ("|a:b:c|").data ∧
    LabelsToDict (GetLabelsFromDict cexMap) = some [(("a").data, ("b:c").data)] ∧
    List.lookup (("a:b").data) [(("a").data, ("b:c").data)] = Option.none ∧
    List.lookup (("a:b").data) (stringifyMap cexMap) = some (("c").data) := by
  decide

/-- C2.  `Encode` renders each pair as `|key:value|` with no escaping and
joins the renderings with `,` after sorting by key: concretely
`Encode({'x':'y','a':'b'})` is exactly `|a:b|,|x:y|`, and in general the
encoder's output is the comma-join of the `|key:value|` renderings of a
key-sorted permutation of the stringified mapping. -/
theorem encode_sorted_format :
    GetLabelsFromDict [(("x").data, PyVal.str (("y").data)),
        (("a").data, PyVal.str (("b").data))] = ("|a:b|,|x:y|").data ∧
    ∀ (m : LabelMap), ∃ l : List (Str × Str), l.Perm (stringifyMap m) ∧ l.Pairwise keyLe ∧
      GetLabelsFromDict m = joinSep ',' (l.map fun p => '|' :: p.1 ++ ':' :: p.2 ++ ['|']) :=
  ⟨by decide, fun m =>
    ⟨sortPairs (stringifyMap m), sortPairs_perm _, sortPairs_sorted _, rfl⟩⟩

/-! ### TimeSeriesLineProtocol (InfluxDB) publisher -/

/-- Modelled from the spec (§4.4): line-protocol escaping of one character:
a space or comma is preceded by a backslash. -/
def escChar (c : Char) : Str :=
  if c = ' ' ∨ c = ',' then ['\\', c] else [c]

/-- Modelled from the spec (§4.4): line-protocol value escaping: any space
is rendered with a backslash before it, any comma with a backslash before
it, and an empty value as the two-character literal `""` with a backslash
before each quote (`\"\"`). -/
def escapeInflux (v : Str) : Str :=
  if v = [] then ['\\', '"', '\\', '"']
  else v.foldr (fun c acc => escChar c ++ acc) []

/-- Modelled from the spec (§4.4): `InfluxDBPublisher._FormatToKeyValue`:
render an association list of fields as `key=value` strings with the
line-protocol value escaping. -/
def _FormatToKeyValue (pairs : List (Str × Str)) : List Str :=
  pairs.map fun p => p.1 ++ '=' :: escapeInflux p.2

/-- Modelled from the spec (§4.4): a sink-ready record as the line-protocol
publisher consumes it.  Numeric reserved fields (`official`, `value`) are
embedded in their already-stringified form; `metadata` is `Option.none`
for a record that has no metadata key at all. -/
structure InfluxRecord where
  test : Str
  official : Str
  owner : Str
  run_uri : Str
  sample_uri : Str
  metric : Str
  unit : Str
  product_name : Str
  value : Str
  timestamp : Int
  metadata : Option (List (Str × Str))
deriving DecidableEq

/-- Modelled from the spec (§4.4): the reserved tags of a record, in the
fixed order `test, official, owner, run_uri, sample_uri, metric, unit,
product_name`. -/
def reservedTags (r : InfluxRecord) : List (Str × Str) :=
  [(("test").data, r.test), (("official").data, r.official),
   (("owner").data, r.owner), (("run_uri").data, r.run_uri),
   (("sample_uri").data, r.sample_uri), (("metric").data, r.metric),
   (("unit").data, r.unit), (("product_name").data, r.product_name)]

/-- Modelled from the spec (§4.4): `InfluxDBPublisher._ConstructSample`:
`<series-name>,<tag1>=<v1>,...,<metadata-key>=<metadata-value>,...
<space>value=<value> <timestamp-ns>` with the reserved tags first in fixed
order, then the metadata keys in mapping order (a record with no metadata
key is rendered with no metadata tags), the sole field `value`, and the
epoch-seconds timestamp multiplied by `10^9` rendered as an integer. -/
def _ConstructSample (r : InfluxRecord) : Str :=
  joinSep ',' (("perfkitbenchmarker").data ::
    _FormatToKeyValue (reservedTags r ++ r.metadata.getD [])) ++
  ' ' :: ("value=").data ++ escapeInflux r.value ++
  ' ' :: (toString (r.timestamp * 1000000000)).data

/-- Modelled from the spec (§4.4): `InfluxDBPublisher.PublishSamples` maps
`_ConstructSample` over the batch. -/
def influxPublishSamples (rs : List InfluxRecord) : List Str :=
  rs.map _ConstructSample

/-- Modelled from the spec (§4.4, §5): the external calls one
`InfluxDBPublisher.PublishSamples` issues: none for an empty batch;
otherwise the "create database if absent" call followed by one write of
the newline-joined lines. -/
def influxPublishCalls (rs : List InfluxRecord) : List Str :=
  if rs = [] then []
  else [("CREATE DATABASE").data, joinSep '\n' (influxPublishSamples rs)]

/-- Sample 5 of `InfluxDBPublisherTestCase.testFormatToKeyValue`, as the
stringified field list in the dictionary's insertion order. -/
def influxSample5 : List (Str × Str) :=
  [(("test").data, ("testc").data), (("metric").data, ("some,metric").data),
   (("official").data, ("1.0").data), (("value").data, ("non").data),
   (("unit").data, ("").data), (("owner").data, ("Rackspace").data),
   (("run_uri").data, ("323").data), (("sample_uri").data, ("").data),
   (("timestamp").data, ("123").data)]

/-- Sample 4 of `InfluxDBPublisherTestCase.testFormatToKeyValue`. -/
def influxSample4 : List (Str × Str) :=
  [(("test").data, ("testc").data), (("metric").data, ("some,metric").data),
   (("official").data, ("1.0").data), (("value").data, ("non").data),
   (("unit").data, ("Some MB").data), (("owner").data, ("Rackspace").data),
   (("run_uri").data, ("323").data), (("sample_uri").data, ("33").data),
   (("timestamp").data, ("123").data)]

/-- The record of `InfluxDBPublisherTestCase.testConstructSample`. -/
def influxTestRecord : InfluxRecord :=
  { test := ("testc").data, official := ("1.0").data,
    owner := ("Rackspace").data, run_uri := ("323").data,
    sample_uri := ("33").data, metric := ("1").data, unit := ("MB").data,
    product_name := ("PerfKitBenchmarker").data, value := ("non").data,
    timestamp := 123,
    metadata := some [(("info").data, ("1").data),
                      (("more_info").data, ("2").data),
                      (("bar").data, ("foo").data)] }

theorem foldr_escChar_clean : ∀ (v : Str), ' ' ∉ v → ',' ∉ v →
    v.foldr (fun c acc => escChar c ++ acc) [] = v
  | [], _, _ => rfl
  | c :: cs, h1, h2 => by
    have hc1 : c ≠ ' ' := fun e => h1 (e ▸ List.mem_cons_self _ _)
    have hc2 : c ≠ ',' := fun e => h2 (e ▸ List.mem_cons_self _ _)
    have ih := foldr_escChar_clean cs (fun m => h1 (List.mem_cons_of_mem _ m))
      (fun m => h2 (List.mem_cons_of_mem _ m))
    simp only [List.foldr_cons]
    rw [ih, escChar]
    simp [hc1, hc2]

theorem escapeInflux_clean (v : Str) (hne : v ≠ []) (h1 : ' ' ∉ v) (h2 : ',' ∉ v) :
    escapeInflux v = v := by
  rw [escapeInflux, if_neg hne, foldr_escChar_clean v h1 h2]

/-- C4.  Line-protocol rendering: on the records of `testFormatToKeyValue`,
a value containing a comma gains a backslash before the comma
(`some,metric` ↦ `some\,metric`), a value containing a space gains a
backslash before the space (`Some MB` ↦ `Some\ MB`), an empty value is
rendered as `\"\"`; and `_ConstructSample` of the `testConstructSample`
record renders the epoch-seconds timestamp `123` as the integer
`123000000000`.  A nonempty value with no space and no comma is rendered
unchanged. -/
theorem influx_escaping :
    _FormatToKeyValue influxSample5 =
      [("test=testc").data, ("metric=some\\,metric").data,
       ("official=1.0").data, ("value=non").data, ("unit=\\\"\\\"").data,
       ("owner=Rackspace").data, ("run_uri=323").data,
       ("sample_uri=\\\"\\\"").data, ("timestamp=123").data] ∧
    _FormatToKeyValue influxSample4 =
      [("test=testc").data, ("metric=some\\,metric").data,
       ("official=1.0").data, ("value=non").data, ("unit=Some\\ MB").data,
       ("owner=Rackspace").data, ("run_uri=323").data,
       ("sample_uri=33").data, ("timestamp=123").data] ∧
    _ConstructSample influxTestRecord =
      ("perfkitbenchmarker,test=testc,official=1.0,owner=Rackspace,run_uri=323,sample_uri=33,metric=1,unit=MB,product_name=PerfKitBenchmarker,info=1,more_info=2,bar=foo value=non 123000000000").data ∧
    ∀ (v : Str), v ≠ [] → ' ' ∉ v → ',' ∉ v → escapeInflux v = v :=
  ⟨by decide, by decide, by decide, escapeInflux_clean⟩

/-- Witness for C4: the unescaped value `MB` passes through unchanged. -/
theorem influx_escaping_witness : escapeInflux (("MB").data) = ("MB").data :=
  influx_escaping.2.2.2 (("MB").data) (by decide) (by decide) (by decide)

/-- The third sample of `InfluxDBPublisherTestCase.testPublishSamples`,
which has no metadata key at all. -/
def influxNoMetaRecord : InfluxRecord :=
  { test := ("testa").data, official := ("47.0").data,
    owner := ("Rackspace").data, run_uri := ("5rtw").data,
    sample_uri := ("5r").data, metric := ("3").data, unit := ("us").data,
    product_name := ("PerfKitBenchmarker").data, value := ("non").data,
    timestamp := 123, metadata := Option.none }

/-- C9.  A record with no `metadata` key at all is accepted and rendered
exactly like the same record with an empty metadata mapping: only the
reserved tags, the single `value` field and the nanosecond timestamp, with
no error.  Concretely, publishing the metadata-less third record of
`testPublishSamples` produces exactly the expected line. -/
theorem influx_missing_metadata :
    (∀ r : InfluxRecord, _ConstructSample { r with metadata := Option.none }
        = _ConstructSample { r with metadata := some [] }) ∧
    influxPublishSamples [influxNoMetaRecord] =
      [("perfkitbenchmarker,test=testa,official=47.0,owner=Rackspace,run_uri=5rtw,sample_uri=5r,metric=3,unit=us,product_name=PerfKitBenchmarker value=non 123000000000").data] :=
  ⟨fun _ => rfl, by decide⟩

/-! ### The sink-ready record and the remaining publisher variants -/

/-- Modelled from the spec (§3): the flattened, sink-ready form of a
sample, with the reserved top-level fields and a nested metadata mapping.
Numeric fields are embedded in their stringified form. -/
structure Record where
  test : Str
  metric : Str
  value : Str
  unit : Str
  product_name : Str
  owner : Str
  run_uri : Str
  sample_uri : Str
  timestamp : Str
  metadata : List (Str × Str)
deriving DecidableEq

/-- Accumulate a key at the end of a first-seen-order list unless already
present. -/
def addUnique (acc : List Str) (k : Str) : List Str :=
  if k ∈ acc then acc else acc ++ [k]

/-- Modelled from the spec (§4.4) and pinned by
`PrettyPrintStreamPublisherTestCase.testSucceedsWithNoSamples`: the banner
line the pretty-print publisher always writes first. -/
def summaryBanner : Str :=
  ("-------------------------PerfKitBenchmarker Results Summary-------------------------").data
    ++ ['\n']

/-- The distinct `test` names of a batch, in first-seen order. -/
def testNames (rs : List Record) : List Str :=
  (rs.map Record.test).foldl addUnique []

/-- One aligned result line of a pretty-printed block: metric, value,
unit. -/
def renderResultLine (r : Record) : Str :=
  ("  ").data ++ r.metric ++ ' ' :: r.value ++ ' ' :: r.unit

/-- One per-test block: the upper-cased test name as header, then one line
per record of that test. -/
def renderTestBlock (rs : List Record) (t : Str) : Str :=
  (t.map Char.toUpper) ++ ':' :: '\n' ::
    joinSep '\n' ((rs.filter fun r => r.test == t).map renderResultLine)

/-- Modelled from the spec (§4.4):
`PrettyPrintStreamPublisher.PublishSamples`: everything written to the
stream — the summary banner (written even for an empty batch, as
`testSucceedsWithNoSamples` pins down), then one block per distinct test. -/
def prettyPrintOutput (rs : List Record) : Str :=
  summaryBanner ++ joinSep '\n' ((testNames rs).map (renderTestBlock rs))

/-- Modelled from the spec (§4.4): `LogPublisher.PublishSamples` forwards
the batch to the logging sink (one log call carrying the batch); no call
at all for an empty batch. -/
def logPublishCalls (rs : List Record) : List (List Record) :=
  if rs = [] then [] else [rs]

/-- A JSON string literal (values relevant to the claims contain no
character needing JSON escaping). -/
def jsonStr (s : Str) : Str := '"' :: s ++ ['"']

/-- One `"key":"value"` member of a JSON object. -/
def jsonField (k v : Str) : Str := jsonStr k ++ ':' :: jsonStr v

/-- Modelled from the spec (§4.4): one line of
`NewlineDelimitedJSONPublisher` output: a JSON object with the reserved
fields passed through and the metadata mapping replaced by a single
`labels` string built by `LabelCodec.Encode`. -/
def ndjsonLine (r : Record) : Str :=
  Char.ofNat 123 :: joinSep ','
    [jsonField (("test").data) r.test, jsonField (("metric").data) r.metric,
     jsonField (("value").data) r.value, jsonField (("unit").data) r.unit,
     jsonField (("product_name").data) r.product_name,
     jsonField (("owner").data) r.owner,
     jsonField (("run_uri").data) r.run_uri,
     jsonField (("sample_uri").data) r.sample_uri,
     jsonField (("timestamp").data) r.timestamp,
     jsonField (("labels").data)
       (GetLabelsFromDict (r.metadata.map fun p => (p.1, PyVal.str p.2)))]
    ++ [Char.ofNat 125]

/-- Modelled from the spec (§4.4):
`NewlineDelimitedJSONPublisher.PublishSamples` appends one JSON line per
record to the target; an empty batch writes nothing. -/
def ndjsonOutput (rs : List Record) : Str :=
  rs.foldr (fun r acc => ndjsonLine r ++ '\n' :: acc) []

/-- Modelled from the spec (§3, §4.4): the reserved CSV column names. -/
def reservedFields : List Str :=
  [("test").data, ("metric").data, ("value").data, ("unit").data,
   ("product_name").data, ("owner").data, ("run_uri").data,
   ("sample_uri").data, ("timestamp").data]

/-- Fold the metadata keys of one record into the first-seen-order key
accumulator. -/
def accMetaKeys (acc : List Str) (r : Record) : List Str :=
  (r.metadata.map Prod.fst).foldl addUnique acc

/-- Modelled from the spec (§4.4): the union of every metadata key seen
across all records, in first-seen order. -/
def metaKeys (rs : List Record) : List Str :=
  rs.foldl accMetaKeys []

/-- The reserved-field cells of one CSV data row. -/
def reservedCells (r : Record) : List Str :=
  [r.test, r.metric, r.value, r.unit, r.product_name, r.owner, r.run_uri,
   r.sample_uri, r.timestamp]

/-- First-match lookup in an association list of strings. -/
def lookupStr (m : List (Str × Str)) (k : Str) : Option Str :=
  match m with
  | [] => Option.none
  | p :: ps => if p.1 = k then some p.2 else lookupStr ps k

/-- Modelled from the spec (§4.4): one CSV data row: the reserved cells,
then one cell per header metadata key — empty when the record's metadata
lacks that key. -/
def csvRow (ks : List Str) (r : Record) : List Str :=
  reservedCells r ++ ks.map fun k => (lookupStr r.metadata k).getD []

/-- Modelled from the spec (§4.4): the CSV header row. -/
def csvHeader (rs : List Record) : List Str :=
  reservedFields ++ metaKeys rs

/-- Modelled from the spec (§4.4): `CSVPublisher.PublishSamples` output as
a list of rows (header plus one data row per record); nothing at all — not
even the header — for an empty batch. -/
def csvOutput (rs : List Record) : List (List Str) :=
  if rs = [] then [] else csvHeader rs :: rs.map (csvRow (metaKeys rs))

/-- The staged temporary NDJSON file handed to the external upload
command. -/
def tempFilePath : Str := ("/tmp/perfkitbenchmarker/temp.json").data

/-- Modelled from the spec (§4.4): the external commands one
`BigQueryPublisher.PublishSamples` issues: none for an empty batch,
otherwise a single `bq load` of the staged NDJSON file. -/
def bigQueryPublishCalls (table : Str) (rs : List Record) : List (List Str) :=
  if rs = [] then []
  else [[("bq").data, ("load").data, ("--autodetect").data,
         ("--source_format=NEWLINE_DELIMITED_JSON").data, table,
         tempFilePath]]

/-- Modelled from the spec (§6) with the exact arithmetic pinned by
`CloudStoragePublisherTestCase.testPublishSamples`: the destination object
name.  The spec calls the first component "12-digit-decimal-epoch-
microseconds", but at time 1417647763.387665 s the test expects the prefix
`141764776338`, i.e. the epoch time in hundredths of a second (the current
epoch time in microseconds, truncated by dividing by 10000); the second
component is the first 7 characters of the UUID string. -/
def _GenerateObjectName (timeMicros : Nat) (uuidStr : Str) : Str :=
  (toString (timeMicros / 10000)).data ++ '_' :: uuidStr.take 7

/-- Modelled from the spec (§4.4, §6): the external commands one
`CloudStoragePublisher.PublishSamples` issues: none for an empty batch,
otherwise a single `gsutil cp` of the staged NDJSON file to the generated
destination. -/
def cloudStoragePublishCalls (bucket : Str) (timeMicros : Nat)
    (uuidStr : Str) (rs : List Record) : List (List Str) :=
  if rs = [] then []
  else [[("gsutil").data, ("cp").data, tempFilePath,
         ("gs://").data ++ bucket ++ '/' :: _GenerateObjectName timeMicros uuidStr]]

/-- C3 counterexample: the pretty-print publisher does write output for an
empty batch — the summary banner — as
`PrettyPrintStreamPublisherTestCase.testSucceedsWithNoSamples` requires
(`assertRegex` on `-+PerfKitBenchmarker Results Summary-+`), so "zero
bytes written for every variant" is false for that variant. -/
theorem empty_publish_cex : prettyPrintOutput [] ≠ [] := by decide

/-- C3 (amended).  Publishing an empty record sequence performs no output
at all — zero bytes, no headers, no files, no external calls — for every
variant except PrettyPrintStream, which writes exactly the summary banner
(and nothing else: no per-test blocks). -/
theorem empty_publish_no_output :
    prettyPrintOutput [] = summaryBanner ∧
    ndjsonOutput [] = [] ∧
    csvOutput [] = [] ∧
    influxPublishCalls [] = [] ∧
    logPublishCalls [] = [] ∧
    (∀ table : Str, bigQueryPublishCalls table [] = []) ∧
    (∀ (bucket uuidStr : Str) (t : Nat),
      cloudStoragePublishCalls bucket t uuidStr [] = []) :=
  ⟨by decide, rfl, rfl, rfl, rfl, fun _ => rfl, fun _ _ _ => rfl⟩

/-! ### CSV header-union lemmas -/

theorem addUnique_nodup (acc : List Str) (k : Str) (h : acc.Nodup) :
    (addUnique acc k).Nodup := by
  rw [addUnique]
  split
  · exact h
  · rename_i hk
    refine List.Nodup.append h (List.nodup_singleton k) ?_
    intro a ha hb
    rw [List.mem_singleton] at hb
    exact hk (hb ▸ ha)

theorem mem_addUnique_of_mem (acc : List Str) (k a : Str) (h : a ∈ acc) :
    a ∈ addUnique acc k := by
  rw [addUnique]
  split
  · exact h
  · exact List.mem_append_left _ h

theorem mem_addUnique_self (acc : List Str) (k : Str) : k ∈ addUnique acc k := by
  rw [addUnique]
  split
  · assumption
  · exact List.mem_append_right _ (List.mem_singleton.mpr rfl)

theorem foldl_addUnique_nodup : ∀ (ks acc : List Str), acc.Nodup →
    (ks.foldl addUnique acc).Nodup
  | [], _, h => h
  | k :: ks, acc, h => foldl_addUnique_nodup ks _ (addUnique_nodup acc k h)

theorem mem_foldl_addUnique_of_mem : ∀ (ks acc : List Str) (a : Str),
    a ∈ acc → a ∈ ks.foldl addUnique acc
  | [], _, _, h => h
  | k :: ks, acc, a, h =>
    mem_foldl_addUnique_of_mem ks _ a (mem_addUnique_of_mem acc k a h)

theorem mem_foldl_addUnique_self : ∀ (ks acc : List Str) (a : Str),
    a ∈ ks → a ∈ ks.foldl addUnique acc
  | [], _, _, h => absurd h (List.not_mem_nil _)
  | k :: ks, acc, a, h => by
    rcases List.mem_cons.mp h with rfl | h'
    · exact mem_foldl_addUnique_of_mem ks _ a (mem_addUnique_self acc a)
    · exact mem_foldl_addUnique_self ks _ a h'

theorem foldl_accMetaKeys_nodup : ∀ (rs : List Record) (acc : List Str),
    acc.Nodup → (rs.foldl accMetaKeys acc).Nodup
  | [], _, h => h
  | _ :: rs, acc, h =>
    foldl_accMetaKeys_nodup rs _ (foldl_addUnique_nodup _ acc h)

theorem mem_foldl_accMetaKeys_of_mem : ∀ (rs : List Record) (acc : List Str)
    (a : Str), a ∈ acc → a ∈ rs.foldl accMetaKeys acc
  | [], _, _, h => h
  | _ :: rs, acc, a, h =>
    mem_foldl_accMetaKeys_of_mem rs _ a (mem_foldl_addUnique_of_mem _ acc a h)

theorem mem_foldl_accMetaKeys : ∀ (rs : List Record) (acc : List Str)
    (r : Record), r ∈ rs → ∀ p ∈ r.metadata, p.1 ∈ rs.foldl accMetaKeys acc
  | [], _, _, h, _, _ => absurd h (List.not_mem_nil _)
  | r' :: rs, acc, r, h, p, hp => by
    rcases List.mem_cons.mp h with rfl | h'
    · exact mem_foldl_accMetaKeys_of_mem rs _ p.1
        (mem_foldl_addUnique_self _ acc p.1 (List.mem_map_of_mem Prod.fst hp))
    · exact mem_foldl_accMetaKeys rs _ r h' p hp

/-- The three records of `CSVPublisherTestCase.testUsesUnionOfMetaKeys`
(unspecified reserved fields empty). -/
def csvRec1 : Record :=
  { test := ("testb").data, metric := ("1").data, value := ("1.0").data,
    unit := ("MB").data, product_name := [], owner := [], run_uri := [],
    sample_uri := [], timestamp := [],
    metadata := [(("key1").data, ("value1").data)] }

def csvRec2 : Record :=
  { csvRec1 with
    metric := ("2").data, value := ("14.0").data,
    metadata := [(("key1").data, ("value2").data)] }

def csvRec3 : Record :=
  { csvRec1 with
    test := ("testa").data, metric := ("3").data,
    value := ("47.0").data, unit := ("us").data,
    metadata := [(("key3").data, ("value3").data)] }

def csvTestRecords : List Record := [csvRec1, csvRec2, csvRec3]

/-- C5.  CSV: the header is the reserved field names followed by the union
of every metadata key across all records in first-seen order (a duplicate-
free list covering every record's keys); each record yields exactly one
data row of uniform width; a metadata key absent from a record renders as
an empty cell.  On the `testUsesUnionOfMetaKeys` records (key sets {key1},
{key1}, {key3}) the trailing header columns are exactly `[key1, key3]` and
each row has exactly its own metadata value in the matching trailing cell. -/
theorem csv_header_union :
    (∀ rs : List Record, (metaKeys rs).Nodup) ∧
    (∀ (rs : List Record) (r : Record), r ∈ rs → ∀ p ∈ r.metadata,
      p.1 ∈ metaKeys rs) ∧
    (∀ rs : List Record, rs ≠ [] →
      csvOutput rs = csvHeader rs :: rs.map (csvRow (metaKeys rs)) ∧
      (csvOutput rs).length = rs.length + 1) ∧
    (∀ (ks : List Str) (r : Record), (csvRow ks r).length = 9 + ks.length) ∧
    metaKeys csvTestRecords = [("key1").data, ("key3").data] ∧
    csvHeader csvTestRecords = reservedFields ++ [("key1").data, ("key3").data] ∧
    (csvOutput csvTestRecords).length = 4 ∧
    (csvRow (metaKeys csvTestRecords) csvRec1).drop 9 = [("value1").data, []] ∧
    (csvRow (metaKeys csvTestRecords) csvRec2).drop 9 = [("value2").data, []] ∧
    (csvRow (metaKeys csvTestRecords) csvRec3).drop 9 = [[], ("value3").data] := by
  refine ⟨fun rs => foldl_accMetaKeys_nodup rs [] List.nodup_nil,
    fun rs r h p hp => mem_foldl_accMetaKeys rs [] r h p hp,
    fun rs h => ⟨by rw [csvOutput, if_neg h], ?_⟩,
    fun ks r => by simp [csvRow, reservedCells]; omega,
    by decide, by decide, by decide, by decide, by decide, by decide⟩
  rw [csvOutput, if_neg h]
  simp

/-- Witness for C5: the header-union membership and row-count facts at the
concrete `testUsesUnionOfMetaKeys` batch. -/
theorem csv_header_union_witness :
    (("key1").data ∈ metaKeys csvTestRecords) ∧
    (csvOutput csvTestRecords).length = csvTestRecords.length + 1 :=
  ⟨csv_header_union.2.1 csvTestRecords csvRec1 (by decide)
      ((("key1").data), (("value1").data)) (by decide),
    (csv_header_union.2.2.1 csvTestRecords (by decide)).2⟩

/-- A concrete one-record batch used to instantiate nonempty-batch
hypotheses. -/
def sampleRecordA : Record :=
  { test := ("testa").data, metric := [], value := [], unit := [],
    product_name := [], owner := [], run_uri := [], sample_uri := [],
    timestamp := [], metadata := [] }

/-- C8 counterexample: at time 1417647763.387665 s the epoch time in
microseconds is the 16-digit 1417647763387665, and the generated object
name `141764776338_be428eb` does not use it as prefix: the prefix is the
epoch time in hundredths of a second, not "the 12-digit decimal epoch time
in microseconds". -/
theorem cloudstorage_destination_cex :
    _GenerateObjectName 1417647763387665
        (("be428eb3-a54a-4615-b7ca-f962b729c7ab").data) =
      ("141764776338_be428eb").data ∧
    (toString (1417647763387665 : Nat)).data.length = 16 ∧
    _GenerateObjectName 1417647763387665
        (("be428eb3-a54a-4615-b7ca-f962b729c7ab").data) ≠
      (toString (1417647763387665 : Nat)).data ++
        '_' :: (("be428eb3-a54a-4615-b7ca-f962b729c7ab").data).take 7 := by
  decide

/-- C8 (amended).  For every nonempty publish, the destination object name
is the epoch time in hundredths of a second (current epoch microseconds
divided by 10000, truncated — 12 digits for current dates), followed by
`_`, followed by the first 7 characters of the freshly generated UUID
string; concretely at time 1417647763.387665 with UUID
be428eb3-a54a-4615-b7ca-f962b729c7ab the single issued command copies the
staged file to `gs://test-bucket/141764776338_be428eb`. -/
theorem cloudstorage_destination (bucket uuidStr : Str) (t : Nat)
    (rs : List Record) (h : rs ≠ []) :
    cloudStoragePublishCalls bucket t uuidStr rs =
      [[("gsutil").data, ("cp").data, tempFilePath,
        ("gs://").data ++ bucket ++ '/' :: (toString (t / 10000)).data
          ++ '_' :: uuidStr.take 7]] ∧
    cloudStoragePublishCalls (("test-bucket").data) 1417647763387665
        (("be428eb3-a54a-4615-b7ca-f962b729c7ab").data) rs =
      [[("gsutil").data, ("cp").data, tempFilePath,
        ("gs://test-bucket/141764776338_be428eb").data]] ∧
    (toString (1417647763387665 / 10000 : Nat)).data.length = 12 := by
  refine ⟨?_, ?_, by decide⟩
  · rw [cloudStoragePublishCalls, if_neg h]
    simp [_GenerateObjectName]
  · rw [cloudStoragePublishCalls, if_neg h]
    decide

/-- Witness for C8 at a one-record batch with the test's time and UUID. -/
theorem cloudstorage_destination_witness :
    cloudStoragePublishCalls (("test-bucket").data) 1417647763387665
        (("be428eb3-a54a-4615-b7ca-f962b729c7ab").data) [sampleRecordA] =
      [[("gsutil").data, ("cp").data, tempFilePath,
        ("gs://test-bucket/141764776338_be428eb").data]] :=
  (cloudstorage_destination (("test-bucket").data)
    (("be428eb3-a54a-4615-b7ca-f962b729c7ab").data) 1417647763387665
    [sampleRecordA] (by decide)).2.1

/-! ### Default metadata provider -/

/-- Modelled from the spec (§3, §4.2): one resource descriptor of the
topology. -/
structure VmResource where
  cloud : Str
  zone : Str
  machine_type : Str
  image : Str
  hostname : Str
  vm_id : Str
  name : Str
  ip_address : Str
  scratch_disks : List (List (Str × PyVal))
deriving DecidableEq

/-- Modelled from the spec (§3): a resource topology: the ordered mapping
from group name to the group's ordered resources. -/
abbrev Topology := List (Str × List VmResource)

/-- Modelled from the spec (§4.2, §7): the strict-mode metadata collision
failure, naming the colliding key. -/
structure ConflictError where
  key : Str
deriving DecidableEq

/-- First-match lookup in a metadata mapping. -/
def lookupVal (m : List (Str × PyVal)) (k : Str) : Option PyVal :=
  match m with
  | [] => Option.none
  | p :: ps => if p.1 = k then some p.2 else lookupVal ps k

/-- Set a key of a metadata mapping, overwriting in place when present and
appending otherwise (Python dict assignment). -/
def setKey (m : List (Str × PyVal)) (k : Str) (v : PyVal) : List (Str × PyVal) :=
  match lookupVal m k with
  | some _ => m.map fun p => if p.1 = k then (k, v) else p
  | Option.none => m ++ [(k, v)]

/-- Modelled from the spec (§4.2): apply one provider-produced entry under
the conflict policy: a key already present in the caller's input metadata
is left at the caller's value (non-strict) or fails the whole call with a
`ConflictError` naming the key (strict); any other key is set, later
provider entries overwriting earlier ones. -/
def addEntry (inputKeys : List Str) (strict : Bool)
    (acc : Except ConflictError (List (Str × PyVal))) (kv : Str × PyVal) :
    Except ConflictError (List (Str × PyVal)) :=
  match acc with
  | .error e => .error e
  | .ok m =>
    if kv.1 ∈ inputKeys then
      if strict then .error ⟨kv.1⟩ else .ok m
    else .ok (setKey m kv.1 kv.2)

/-- Modelled from the spec (§4.2): the group-level aggregates: cloud,
zone, machine type and image from the group's first resource, the resource
count, and the comma-joined order-preserving hostname/id/name/IP
sequences. -/
def groupAggs (vms : List VmResource) (v0 : VmResource) : List (Str × PyVal) :=
  [(("cloud").data, PyVal.str v0.cloud),
   (("zone").data, PyVal.str v0.zone),
   (("machine_type").data, PyVal.str v0.machine_type),
   (("image").data, PyVal.str v0.image),
   (("vm_count").data, PyVal.int vms.length),
   (("hostnames").data, PyVal.str (joinSep ',' (vms.map VmResource.hostname))),
   (("vm_ids").data, PyVal.str (joinSep ',' (vms.map VmResource.vm_id))),
   (("vm_names").data, PyVal.str (joinSep ',' (vms.map VmResource.name))),
   (("vm_ip_addresses").data,
    PyVal.str (joinSep ',' (vms.map VmResource.ip_address)))]

/-- Modelled from the spec (§4.2): the entries one group contributes: its
aggregates under `<group>_`-prefixed keys and, for the group literally
named "default", the same aggregates additionally without a prefix (the
compatibility quirk). -/
def perGroupEntries : Str × List VmResource → List (Str × PyVal)
  | (_, []) => []
  | (g, v :: vs) =>
    (groupAggs (v :: vs) v).map (fun p => (g ++ ("_").data ++ p.1, p.2)) ++
    (if g = ("default").data then groupAggs (v :: vs) v else [])

/-- All resources of the topology in group-then-member order. -/
def allVms (topo : Topology) : List VmResource :=
  topo.foldr (fun gp acc => gp.2 ++ acc) []

/-- Modelled from the spec (§4.2): the global unprefixed aggregates across
all resources regardless of group, in topology order. -/
def globalEntries (vms : List VmResource) : List (Str × PyVal) :=
  [(("hostnames").data, PyVal.str (joinSep ',' (vms.map VmResource.hostname))),
   (("vm_ids").data, PyVal.str (joinSep ',' (vms.map VmResource.vm_id))),
   (("vm_names").data, PyVal.str (joinSep ',' (vms.map VmResource.name))),
   (("vm_ip_addresses").data,
    PyVal.str (joinSep ',' (vms.map VmResource.ip_address)))]

/-- Modelled from the spec (§4.2): the entries of one disk: every field of
the disk descriptor under a `data_disk_<index>_` prefix, except an `iops`
field holding the absent sentinel `None`, which is omitted. -/
def diskPairs (i : Nat) (d : List (Str × PyVal)) : List (Str × PyVal) :=
  (d.filter fun p => decide (¬(p.1 = ("iops").data ∧ p.2 = PyVal.none))).map
    fun p => (("data_disk_").data ++ (toString i).data ++ ("_").data ++ p.1, p.2)

/-- Modelled from the spec (§4.2): the scratch-disk entries of one
resource: the per-disk entries plus `data_disk_count`; nothing for a
resource with no attached disks. -/
def diskEntriesOfVm (vm : VmResource) : List (Str × PyVal) :=
  if vm.scratch_disks = [] then []
  else
    (vm.scratch_disks.enum.foldr
      (fun (p : Nat × List (Str × PyVal)) acc => diskPairs p.1 p.2 ++ acc) []) ++
    [(("data_disk_count").data, PyVal.int vm.scratch_disks.length)]

/-- The scratch-disk entries of every resource. -/
def diskEntries (vms : List VmResource) : List (Str × PyVal) :=
  vms.foldr (fun vm acc => diskEntriesOfVm vm ++ acc) []

/-- Modelled from the spec (§4.2): every entry the default provider emits,
in emission order: per-group entries (with the "default" duplication),
then the global unprefixed aggregates (which therefore supersede the
"default" group's unprefixed sequence aggregates, as
`DefaultMetadataProviderTestCase.testMultipleVms` pins down), then the
scratch-disk entries. -/
def providerEntries (topo : Topology) : List (Str × PyVal) :=
  (topo.foldr (fun gp acc => perGroupEntries gp ++ acc) []) ++
  globalEntries (allVms topo) ++ diskEntries (allVms topo)

/-- Modelled from the spec (§4.2):
`DefaultMetadataProvider.AddMetadata(metadata, topology)`: returns a new
mapping extending the input with every provider entry under the conflict
policy (`strict` = the `throw_on_metadata_conflict` switch). -/
def AddMetadata (strict : Bool) (metadata : List (Str × PyVal))
    (topo : Topology) : Except ConflictError (List (Str × PyVal)) :=
  (providerEntries topo).foldl (addEntry (metadata.map Prod.fst) strict)
    (.ok metadata)

/-- Lookup in the result of a successful enrichment. -/
def okLookup (r : Except ConflictError (List (Str × PyVal))) (k : Str) :
    Option PyVal :=
  match r with
  | .error _ => Option.none
  | .ok m => lookupVal m k

/-- The key named by a failed enrichment. -/
def errKey (r : Except ConflictError (List (Str × PyVal))) : Option Str :=
  match r with
  | .error e => some e.key
  | .ok _ => Option.none

/-- The mock resource of `publisher_test.CreateMockVM` with its default
arguments. -/
def vmDefault : VmResource :=
  { cloud := ("GCP").data, zone := ("us-central1-a").data,
    machine_type := ("n1-standard-1").data, image := ("ubuntu-14-04").data,
    hostname := ("Hostname").data, vm_id := ("12345").data,
    name := ("Hostname").data, ip_address := ("1.2.3.4").data,
    scratch_disks := [] }

/-- The resource `CreateMockVM(hostname='foo', vm_id='42', ip_address='5.6.7.8')`. -/
def vmFoo : VmResource :=
  { vmDefault with
    hostname := ("foo").data, vm_id := ("42").data, name := ("foo").data,
    ip_address := ("5.6.7.8").data }

/-- The resource `CreateMockVM(hostname='bar', vm_id='321', ip_address='3.2.1')`. -/
def vmBar : VmResource :=
  { vmDefault with
    hostname := ("bar").data, vm_id := ("321").data, name := ("bar").data,
    ip_address := ("3.2.1").data }

/-- The single-group topology of `DefaultMetadataProviderTestCase.setUp`. -/
def topoSingle : Topology := [(("default").data, [vmDefault])]

/-- The two-group topology of `testMultipleVms`. -/
def topoMulti : Topology :=
  [(("default").data, [vmDefault]), (("other").data, [vmFoo, vmBar])]

/-- The input metadata `{'some_key': 'some_value'}` of the provider
tests. -/
def inputMeta : List (Str × PyVal) :=
  [(("some_key").data, PyVal.str (("some_value").data))]

/-- C6.  Default provider group aggregation: the single-group topology
(group "default", one resource with hostname `Hostname`, id `12345`, IP
`1.2.3.4`) yields both the unprefixed `vm_count = 1` and the prefixed
`default_vm_ids = '12345'`; with a second group "other" holding two
resources it additionally yields `other_vm_count = 2` and the
group-prefixed aggregates for "other", while the global unprefixed
`hostnames`, `vm_ids`, `vm_names` and `vm_ip_addresses` are the
comma-joined concatenations across every group in group-then-member order
(`vm_ids = '12345,42,321'`). -/
theorem default_group_aggregation :
    okLookup (AddMetadata false inputMeta topoSingle) (("vm_count").data)
      = some (PyVal.int 1) ∧
    okLookup (AddMetadata false inputMeta topoSingle) (("default_vm_ids").data)
      = some (PyVal.str (("12345").data)) ∧
    okLookup (AddMetadata false inputMeta topoSingle) (("some_key").data)
      = some (PyVal.str (("some_value").data)) ∧
    okLookup (AddMetadata false inputMeta topoMulti) (("vm_count").data)
      = some (PyVal.int 1) ∧
    okLookup (AddMetadata false inputMeta topoMulti) (("default_vm_ids").data)
      = some (PyVal.str (("12345").data)) ∧
    okLookup (AddMetadata false inputMeta topoMulti) (("other_vm_count").data)
      = some (PyVal.int 2) ∧
    okLookup (AddMetadata false inputMeta topoMulti) (("other_vm_ids").data)
      = some (PyVal.str (("42,321").data)) ∧
    okLookup (AddMetadata false inputMeta topoMulti)
        (("other_vm_ip_addresses").data)
      = some (PyVal.str (("5.6.7.8,3.2.1").data)) ∧
    okLookup (AddMetadata false inputMeta topoMulti) (("other_machine_type").data)
      = some (PyVal.str (("n1-standard-1").data)) ∧
    okLookup (AddMetadata false inputMeta topoMulti) (("hostnames").data)
      = some (PyVal.str (("Hostname,foo,bar").data)) ∧
    okLookup (AddMetadata false inputMeta topoMulti) (("vm_ids").data)
      = some (PyVal.str (("12345,42,321").data)) ∧
    okLookup (AddMetadata false inputMeta topoMulti) (("vm_names").data)
      = some (PyVal.str (("Hostname,foo,bar").data)) ∧
    okLookup (AddMetadata false inputMeta topoMulti) (("vm_ip_addresses").data)
      = some (PyVal.str (("1.2.3.4,5.6.7.8,3.2.1").data)) := by
  decide

/-- The input metadata of `testDontOverrideMetadata` /
`testOverridingMetadataThrows`: the caller already supplies
`machine_type`. -/
def conflictMeta : List (Str × PyVal) :=
  [(("some_key").data, PyVal.str (("some_value").data)),
   (("machine_type").data, PyVal.str (("unique-machine-type").data))]

/-- C7.  Metadata conflict policy: enriching metadata that already
contains `machine_type` with the default provider (which also sets
`machine_type`) preserves the caller's value under the non-strict
configuration, and under the strict configuration
(`throw_on_metadata_conflict`) fails with a `ConflictError` naming
`machine_type` instead of producing a result. -/
theorem metadata_conflict_policy :
    okLookup (AddMetadata false conflictMeta topoSingle)
        (("machine_type").data)
      = some (PyVal.str (("unique-machine-type").data)) ∧
    okLookup (AddMetadata false conflictMeta topoSingle) (("cloud").data)
      = some (PyVal.str (("GCP").data)) ∧
    errKey (AddMetadata true conflictMeta topoSingle)
      = some (("machine_type").data) ∧
    okLookup (AddMetadata true conflictMeta topoSingle) (("cloud").data)
      = Option.none := by
  decide

/-- The disk descriptor metadata of `DefaultMetadataProviderTestCase.setUp`
with `size` set to `None` as in `testAddMetadata_DiskSizeNone`. -/
def diskMeta : List (Str × PyVal) :=
  [(("type").data, PyVal.str (("disk-type").data)),
   (("size").data, PyVal.none),
   (("num_stripes").data, PyVal.int 1)]

/-- The single-group topology whose resource carries one disk with the
given descriptor metadata. -/
def topoDisk (d : List (Str × PyVal)) : Topology :=
  [(("default").data, [{ vmDefault with scratch_disks := [d] }])]

/-- C10.  Disk enrichment: only an `iops` field whose value is the absent
sentinel `None` is omitted; any other disk field whose value is `None` is
still emitted with that `None` value: a disk mapping `size` to `None`
yields `data_disk_0_size = None` alongside `data_disk_0_type`,
`data_disk_0_num_stripes` and `data_disk_count`; adding `iops = None`
emits no `data_disk_0_iops`, while `iops = 1000` emits
`data_disk_0_iops = 1000`.  In general every disk entry other than an
`iops`-`None` one appears prefixed in the per-disk output. -/
theorem disk_none_fields_emitted :
    okLookup (AddMetadata false inputMeta (topoDisk diskMeta))
        (("data_disk_0_size").data) = some PyVal.none ∧
    okLookup (AddMetadata false inputMeta (topoDisk diskMeta))
        (("data_disk_0_type").data) = some (PyVal.str (("disk-type").data)) ∧
    okLookup (AddMetadata false inputMeta (topoDisk diskMeta))
        (("data_disk_0_num_stripes").data) = some (PyVal.int 1) ∧
    okLookup (AddMetadata false inputMeta (topoDisk diskMeta))
        (("data_disk_count").data) = some (PyVal.int 1) ∧
    okLookup (AddMetadata false inputMeta
          (topoDisk (diskMeta ++ [(("iops").data, PyVal.none)])))
        (("data_disk_0_iops").data) = Option.none ∧
    okLookup (AddMetadata false inputMeta
          (topoDisk (diskMeta ++ [(("iops").data, PyVal.none)])))
        (("data_disk_0_size").data) = some PyVal.none ∧
    okLookup (AddMetadata false inputMeta
          (topoDisk (diskMeta ++ [(("iops").data, PyVal.int 1000)])))
        (("data_disk_0_iops").data) = some (PyVal.int 1000) ∧
    ∀ (i : Nat) (d : List (Str × PyVal)) (p : Str × PyVal), p ∈ d →
      ¬(p.1 = ("iops").data ∧ p.2 = PyVal.none) →
      (("data_disk_").data ++ (toString i).data ++ ("_").data ++ p.1, p.2)
        ∈ diskPairs i d := by
  refine ⟨by decide, by decide, by decide, by decide, by decide, by decide,
    by decide, ?_⟩
  intro i d p hp hkeep
  exact List.mem_map_of_mem _ (List.mem_filter.mpr ⟨hp, decide_eq_true hkeep⟩)

/-- Witness for C10: the `type` entry of the test disk appears prefixed in
the per-disk output. -/
theorem disk_none_fields_emitted_witness :
    ((("data_disk_0_type").data, PyVal.str (("disk-type").data))
      ∈ diskPairs 0 diskMeta) :=
  disk_none_fields_emitted.2.2.2.2.2.2.2 0 diskMeta
    ((("type").data), PyVal.str (("disk-type").data)) (by decide) (by decide)
